import Mathlib

/-!
Verification of the claude-relay-service security and database layer.

This file gives a shallow embedding, in Lean 4, of the parts of the
repository that the checked claims speak about:

* `SecurityUtils` (src/utils/security.js): constant-time comparison,
  PBKDF2-based API-key hashing, API-key format validation;
* `DatabaseService` (docs/LOCAL_DEVELOPMENT_SETUP.md, databaseService.js):
  SHA-256 token validation, usage recording, daily rollups, credit clamping;
* the `/readiness` route of the health router;

together with theorems settling the claims.  JavaScript strings are
modelled as Lean `String`s (or `List Char` where only code units matter);
their UTF-8 encodings as `List Nat` byte lists; JavaScript numbers as `ℚ`;
SQL NULL as `Option`.  The Node `crypto` primitives the code calls
(`createHash('sha256')`, `pbkdf2Sync(…,'sha512')`, `timingSafeEqual`) are
embedded by their standard definitions, executable over `Nat`.
-/

namespace Relay

/-! ## Bytes and hex encoding -/

/-- Truncate to a 32-bit word, as JavaScript / the hash functions do. -/
def w32 (n : Nat) : Nat := n % 4294967296

/-- Truncate to a 64-bit word. -/
def w64 (n : Nat) : Nat := n % 18446744073709551616

/-- Right rotation of a 32-bit word. -/
def rotr32 (n x : Nat) : Nat := w32 ((x >>> n) ||| (x <<< (32 - n)))

/-- Right rotation of a 64-bit word. -/
def rotr64 (n x : Nat) : Nat := w64 ((x >>> n) ||| (x <<< (64 - n)))

/-- The lowercase hex digit for a value below 16 (Node's `toString('hex')`). -/
def hexDigit (n : Nat) : Char :=
  if n < 10 then Char.ofNat (48 + n) else Char.ofNat (87 + n)

/-- Hex encoding of a byte list, two lowercase digits per byte. -/
def bytesToHex (l : List Nat) : List Char :=
  l.flatMap (fun b => [hexDigit (b / 16), hexDigit (b % 16)])

/-- The sixteen characters Node's lowercase hex alphabet uses. -/
def isHexDigitChar (c : Char) : Bool :=
  ('0' ≤ c && c ≤ '9') || ('a' ≤ c && c ≤ 'f')


/-- UTF-8 encoding of a single character, as Node's `Buffer.from(str)` /
`hash.update(str)` produce it. -/
def utf8Char (c : Char) : List Nat :=
  let n := c.toNat
  if n < 128 then [n]
  else if n < 2048 then [192 + n / 64, 128 + n % 64]
  else if n < 65536 then [224 + n / 4096, 128 + n / 64 % 64, 128 + n % 64]
  else [240 + n / 262144, 128 + n / 4096 % 64, 128 + n / 64 % 64, 128 + n % 64]

/-- The UTF-8 byte sequence of a string. -/
def strBytes (s : String) : List Nat := s.data.flatMap utf8Char

/-! ## SHA-256 (as invoked by `crypto.createHash('sha256')`) -/

/-- The 64 SHA-256 round constants (fractional parts of cube roots of the
first 64 primes, 32 bits each). -/
def K256 : List Nat :=
  [1116352408, 1899447441, 3049323471, 3921009573,
   961987163, 1508970993, 2453635748, 2870763221,
   3624381080, 310598401, 607225278, 1426881987,
   1925078388, 2162078206, 2614888103, 3248222580,
   3835390401, 4022224774, 264347078, 604807628,
   770255983, 1249150122, 1555081692, 1996064986,
   2554220882, 2821834349, 2952996808, 3210313671,
   3336571891, 3584528711, 113926993, 338241895,
   666307205, 773529912, 1294757372, 1396182291,
   1695183700, 1986661051, 2177026350, 2456956037,
   2730485921, 2820302411, 3259730800, 3345764771,
   3516065817, 3600352804, 4094571909, 275423344,
   430227734, 506948616, 659060556, 883997877,
   958139571, 1322822218, 1537002063, 1747873779,
   1955562222, 2024104815, 2227730452, 2361852424,
   2428436474, 2756734187, 3204031479, 3329325298]

/-- An eight-word hash state, shared by the SHA-2 compression functions. -/
structure Hash8 where
  a : Nat
  b : Nat
  c : Nat
  d : Nat
  e : Nat
  f : Nat
  g : Nat
  h : Nat
deriving Repr, DecidableEq

/-- The SHA-256 initial hash value. -/
def initH256 : Hash8 :=
  ⟨1779033703, 3144134277, 1013904242, 2773480762,
   1359893119, 2600822924, 528734635, 1541459225⟩

/-- Group bytes into big-endian 32-bit words. -/
def beWords32 : List Nat → List Nat
  | b0 :: b1 :: b2 :: b3 :: rest =>
      (b0 * 16777216 + b1 * 65536 + b2 * 256 + b3) :: beWords32 rest
  | _ => []

/-- The four big-endian bytes of a 32-bit word. -/
def word32Bytes (x : Nat) : List Nat :=
  [x / 16777216 % 256, x / 65536 % 256, x / 256 % 256, x % 256]

/-- SHA-256 message padding: `0x80`, zeros to 56 mod 64, then the 64-bit
big-endian bit length. -/
def pad256 (msg : List Nat) : List Nat :=
  let bitLen := msg.length * 8
  msg ++ [128] ++ List.replicate ((119 - msg.length % 64) % 64) 0 ++
    [bitLen >>> 56 % 256, bitLen >>> 48 % 256, bitLen >>> 40 % 256, bitLen >>> 32 % 256,
     bitLen >>> 24 % 256, bitLen >>> 16 % 256, bitLen >>> 8 % 256, bitLen % 256]

/-- Split a byte list into 64-byte chunks. -/
def chunks64 (l : List Nat) : List (List Nat) :=
  if h : l = [] then []
  else l.take 64 :: chunks64 (l.drop 64)
termination_by l.length
decreasing_by
  simp only [List.length_drop]
  have : 0 < l.length := List.length_pos.mpr h
  omega

/-- Extend a message schedule by one word (SHA-256 small sigmas). -/
def sched256Step (w : List Nat) : List Nat :=
  let i := w.length
  let x15 := w.getD (i - 15) 0
  let x2 := w.getD (i - 2) 0
  let s0 := rotr32 7 x15 ^^^ rotr32 18 x15 ^^^ (x15 >>> 3)
  let s1 := rotr32 17 x2 ^^^ rotr32 19 x2 ^^^ (x2 >>> 10)
  w ++ [w32 (w.getD (i - 16) 0 + s0 + w.getD (i - 7) 0 + s1)]

/-- Apply a function `n` times. -/
def iterApply (f : α → α) : Nat → α → α
  | 0, a => a
  | n + 1, a => iterApply f n (f a)

/-- The full 64-word SHA-256 message schedule of a 16-word chunk. -/
def sched256 (w : List Nat) : List Nat := iterApply sched256Step 48 w

/-- One SHA-256 round: `kw` is the pair of round constant and schedule word. -/
def step256 (st : Hash8) (kw : Nat × Nat) : Hash8 :=
  let S1 := rotr32 6 st.e ^^^ rotr32 11 st.e ^^^ rotr32 25 st.e
  let ch := (st.e &&& st.f) ^^^ ((st.e ^^^ 4294967295) &&& st.g)
  let t1 := w32 (st.h + S1 + ch + kw.1 + kw.2)
  let S0 := rotr32 2 st.a ^^^ rotr32 13 st.a ^^^ rotr32 22 st.a
  let maj := (st.a &&& st.b) ^^^ (st.a &&& st.c) ^^^ (st.b &&& st.c)
  let t2 := w32 (S0 + maj)
  ⟨w32 (t1 + t2), st.a, st.b, st.c, w32 (st.d + t1), st.e, st.f, st.g⟩

/-- Compress one 64-byte chunk into the running hash state. -/
def compress256 (st : Hash8) (chunk : List Nat) : Hash8 :=
  let w := sched256 (beWords32 chunk)
  let r := (K256.zip w).foldl step256 st
  ⟨w32 (st.a + r.a), w32 (st.b + r.b), w32 (st.c + r.c), w32 (st.d + r.d),
   w32 (st.e + r.e), w32 (st.f + r.f), w32 (st.g + r.g), w32 (st.h + r.h)⟩

/-- SHA-256 of a byte list: the 32 digest bytes. -/
def sha256 (msg : List Nat) : List Nat :=
  let st := (chunks64 (pad256 msg)).foldl compress256 initH256
  word32Bytes st.a ++ word32Bytes st.b ++ word32Bytes st.c ++ word32Bytes st.d ++
    word32Bytes st.e ++ word32Bytes st.f ++ word32Bytes st.g ++ word32Bytes st.h

/-- Node's `crypto.createHash('sha256').update(s).digest('hex')`: the lowercase hex
digest of the UTF-8 bytes of a string. -/
def sha256HexS (s : String) : String := ⟨bytesToHex (sha256 (strBytes s))⟩

/-! ## SHA-512, HMAC-SHA512 and PBKDF2
(as invoked by `crypto.pbkdf2Sync(apiKey, salt, 10000, 64, 'sha512')`) -/

/-- The 80 SHA-512 round constants (fractional parts of cube roots of the
first 80 primes, 64 bits each). -/
def K512 : List Nat :=
  [4794697086780616226, 8158064640168781261, 13096744586834688815, 16840607885511220156,
   4131703408338449720, 6480981068601479193, 10538285296894168987, 12329834152419229976,
   15566598209576043074, 1334009975649890238, 2608012711638119052, 6128411473006802146,
   8268148722764581231, 9286055187155687089, 11230858885718282805, 13951009754708518548,
   16472876342353939154, 17275323862435702243, 1135362057144423861, 2597628984639134821,
   3308224258029322869, 5365058923640841347, 6679025012923562964, 8573033837759648693,
   10970295158949994411, 12119686244451234320, 12683024718118986047, 13788192230050041572,
   14330467153632333762, 15395433587784984357, 489312712824947311, 1452737877330783856,
   2861767655752347644, 3322285676063803686, 5560940570517711597, 5996557281743188959,
   7280758554555802590, 8532644243296465576, 9350256976987008742, 10552545826968843579,
   11727347734174303076, 12113106623233404929, 14000437183269869457, 14369950271660146224,
   15101387698204529176, 15463397548674623760, 17586052441742319658, 1182934255886127544,
   1847814050463011016, 2177327727835720531, 2830643537854262169, 3796741975233480872,
   4115178125766777443, 5681478168544905931, 6601373596472566643, 7507060721942968483,
   8399075790359081724, 8693463985226723168, 9568029438360202098, 10144078919501101548,
   10430055236837252648, 11840083180663258601, 13761210420658862357, 14299343276471374635,
   14566680578165727644, 15097957966210449927, 16922976911328602910, 17689382322260857208,
   500013540394364858, 748580250866718886, 1242879168328830382, 1977374033974150939,
   2944078676154940804, 3659926193048069267, 4368137639120453308, 4836135668995329356,
   5532061633213252278, 6448918945643986474, 6902733635092675308, 7801388544844847127]

/-- The SHA-512 initial hash value. -/
def initH512 : Hash8 :=
  ⟨7640891576956012808, 13503953896175478587, 4354685564936845355, 11912009170470909681,
   5840696475078001361, 11170449401992604703, 2270897969802886507, 6620516959819538809⟩

/-- Group bytes into big-endian 64-bit words. -/
def beWords64 : List Nat → List Nat
  | b0 :: b1 :: b2 :: b3 :: b4 :: b5 :: b6 :: b7 :: rest =>
      (((((((b0 * 256 + b1) * 256 + b2) * 256 + b3) * 256 + b4) * 256 + b5) * 256 + b6)
        * 256 + b7) :: beWords64 rest
  | _ => []

/-- The eight big-endian bytes of a 64-bit word. -/
def word64Bytes (x : Nat) : List Nat :=
  [x >>> 56 % 256, x >>> 48 % 256, x >>> 40 % 256, x >>> 32 % 256,
   x >>> 24 % 256, x >>> 16 % 256, x >>> 8 % 256, x % 256]

/-- SHA-512 message padding: `0x80`, zeros to 112 mod 128, then the 128-bit
big-endian bit length. -/
def pad512 (msg : List Nat) : List Nat :=
  let bitLen := msg.length * 8
  msg ++ [128] ++ List.replicate ((239 - msg.length % 128) % 128) 0 ++
    word64Bytes (bitLen >>> 64) ++ word64Bytes bitLen

/-- Split a byte list into 128-byte chunks. -/
def chunks128 (l : List Nat) : List (List Nat) :=
  if h : l = [] then []
  else l.take 128 :: chunks128 (l.drop 128)
termination_by l.length
decreasing_by
  simp only [List.length_drop]
  have : 0 < l.length := List.length_pos.mpr h
  omega

/-- Extend a SHA-512 message schedule by one word. -/
def sched512Step (w : List Nat) : List Nat :=
  let i := w.length
  let x15 := w.getD (i - 15) 0
  let x2 := w.getD (i - 2) 0
  let s0 := rotr64 1 x15 ^^^ rotr64 8 x15 ^^^ (x15 >>> 7)
  let s1 := rotr64 19 x2 ^^^ rotr64 61 x2 ^^^ (x2 >>> 6)
  w ++ [w64 (w.getD (i - 16) 0 + s0 + w.getD (i - 7) 0 + s1)]

/-- The full 80-word SHA-512 message schedule of a 16-word chunk. -/
def sched512 (w : List Nat) : List Nat := iterApply sched512Step 64 w

/-- One SHA-512 round. -/
def step512 (st : Hash8) (kw : Nat × Nat) : Hash8 :=
  let S1 := rotr64 14 st.e ^^^ rotr64 18 st.e ^^^ rotr64 41 st.e
  let ch := (st.e &&& st.f) ^^^ ((st.e ^^^ 18446744073709551615) &&& st.g)
  let t1 := w64 (st.h + S1 + ch + kw.1 + kw.2)
  let S0 := rotr64 28 st.a ^^^ rotr64 34 st.a ^^^ rotr64 39 st.a
  let maj := (st.a &&& st.b) ^^^ (st.a &&& st.c) ^^^ (st.b &&& st.c)
  let t2 := w64 (S0 + maj)
  ⟨w64 (t1 + t2), st.a, st.b, st.c, w64 (st.d + t1), st.e, st.f, st.g⟩

/-- Compress one 128-byte chunk into the running hash state. -/
def compress512 (st : Hash8) (chunk : List Nat) : Hash8 :=
  let w := sched512 (beWords64 chunk)
  let r := (K512.zip w).foldl step512 st
  ⟨w64 (st.a + r.a), w64 (st.b + r.b), w64 (st.c + r.c), w64 (st.d + r.d),
   w64 (st.e + r.e), w64 (st.f + r.f), w64 (st.g + r.g), w64 (st.h + r.h)⟩

/-- SHA-512 of a byte list: the 64 digest bytes. -/
def sha512 (msg : List Nat) : List Nat :=
  let st := (chunks128 (pad512 msg)).foldl compress512 initH512
  word64Bytes st.a ++ word64Bytes st.b ++ word64Bytes st.c ++ word64Bytes st.d ++
    word64Bytes st.e ++ word64Bytes st.f ++ word64Bytes st.g ++ word64Bytes st.h

/-- HMAC-SHA512 with block size 128 (RFC 2104), the PRF `pbkdf2Sync` uses. -/
def hmacSha512 (key msg : List Nat) : List Nat :=
  let k0 := if 128 < key.length then sha512 key else key
  let kp := k0 ++ List.replicate (128 - k0.length) 0
  let ipad := kp.map (fun b => b ^^^ 54)
  let opad := kp.map (fun b => b ^^^ 92)
  sha512 (opad ++ sha512 (ipad ++ msg))

/-- Bytewise xor of two equally long byte lists. -/
def xorBytes (a b : List Nat) : List Nat := List.zipWith (fun x y => x ^^^ y) a b

/-- The big-endian 32-bit block index PBKDF2 appends to the salt. -/
def int32be (i : Nat) : List Nat := word32Bytes i

/-- The iteration chain of one PBKDF2 block: repeatedly re-apply the PRF and
xor the results into the accumulator. -/
def pbkdf2Iter (pw : List Nat) : Nat → List Nat → List Nat → List Nat
  | 0, _, acc => acc
  | n + 1, u, acc =>
      let u' := hmacSha512 pw u
      pbkdf2Iter pw n u' (xorBytes acc u')

/-- Block `i` of PBKDF2-HMAC-SHA512 with `c` iterations (RFC 2898 `F`). -/
def pbkdf2F (pw salt : List Nat) (c i : Nat) : List Nat :=
  let u1 := hmacSha512 pw (salt ++ int32be i)
  pbkdf2Iter pw (c - 1) u1 u1

/-- Node's `crypto.pbkdf2Sync(pw, salt, c, dkLen, 'sha512')`: the derived key bytes. -/
def pbkdf2Sha512 (pw salt : List Nat) (c dkLen : Nat) : List Nat :=
  let blocks := (dkLen + 63) / 64
  (((List.range blocks).map (fun i => pbkdf2F pw salt c (i + 1))).flatten).take dkLen

/-! ## SecurityUtils (src/utils/security.js) -/

/-- A JavaScript value as `constantTimeCompare` distinguishes them: a string
(modelled by its byte sequence, the UTF-8 encoding `Buffer.from` produces) or
any non-string value. -/
inductive JsVal where
  | jstr (bytes : List Nat) : JsVal
  | jother : JsVal
deriving DecidableEq

/-- Node's `crypto.timingSafeEqual` on two equal-length buffers: the xor of every
byte pair is or-accumulated and the accumulator compared to zero once. -/
def timingSafeEqual (a b : List Nat) : Bool :=
  decide ((a.zip b).foldl (fun acc pr => acc ||| (pr.1 ^^^ pr.2)) 0 = 0)

/-- The function `SecurityUtils.constantTimeCompare(a, b)` (src/utils/security.js lines
22-44): non-strings are rejected, then byte lengths are compared, then the
equal-length buffers go through `crypto.timingSafeEqual`; the try/catch
around the latter cannot fire on equal-length buffers. -/
def constantTimeCompare : JsVal → JsVal → Bool
  | JsVal.jstr a, JsVal.jstr b =>
      if a.length ≠ b.length then false else timingSafeEqual a b
  | _, _ => false

/-- The pair `{ hash, salt }` that `hashApiKey` returns. -/
structure HashSalt where
  hash : String
  salt : String
deriving DecidableEq

/-- The function `SecurityUtils.hashApiKey(apiKey, salt)` (src/utils/security.js lines
75-83): PBKDF2-HMAC-SHA512 over the key and salt with 10000 iterations and a
64-byte derived key, hex encoded.  The code draws 16 random bytes for `salt`
when none is passed; that randomness is modelled by the caller supplying the
salt explicitly. -/
def hashApiKey (apiKey salt : String) : HashSalt :=
  { hash := ⟨bytesToHex (pbkdf2Sha512 (strBytes apiKey) (strBytes salt) 10000 64)⟩
    salt := salt }

/-- The function `SecurityUtils.verifyApiKey(apiKey, hash, salt)` (lines 92-96): recompute
the PBKDF2 hash and compare in constant time. -/
def verifyApiKey (apiKey storedHash salt : String) : Bool :=
  constantTimeCompare (JsVal.jstr (strBytes (hashApiKey apiKey salt).hash))
    (JsVal.jstr (strBytes storedHash))

/-- One character of the key body: `[a-zA-Z0-9_]`. -/
def isWordChar (c : Char) : Bool :=
  ('a' ≤ c && c ≤ 'z') || ('A' ≤ c && c ≤ 'Z') || ('0' ≤ c && c ≤ '9') || c == '_'

/-- The accepted key starts: `sk_`, `cr_`, `pk_`. -/
def allowedStarts : List (List Char) := [['s','k','_'], ['c','r','_'], ['p','k','_']]

/-- The function `SecurityUtils.isValidApiKeyFormat(apiKey)` (src/utils/security.js lines
159-184), on the characters of a JavaScript string: falsy/empty guard,
length between 20 and 256, `startsWith` one of the three starts, then the
`^[a-zA-Z0-9_]+$` test on everything after the first three characters. -/
def isValidApiKeyFormat (s : List Char) : Bool :=
  if s.isEmpty then false
  else if decide (s.length < 20) || decide (256 < s.length) then false
  else if ! allowedStarts.any (fun p => p.isPrefixOf s) then false
  else if ! (! (s.drop 3).isEmpty && (s.drop 3).all isWordChar) then false
  else true

/-- The pattern of the specification's plaintext format guard, read
literally: a start `sk_`, `cr_` or `pk_` followed by 17 to 253 characters
from `[A-Za-z0-9_]`. -/
def MatchesGuardPattern (s : List Char) : Prop :=
  ∃ p r, s = p ++ r ∧ p ∈ allowedStarts ∧ 17 ≤ r.length ∧ r.length ≤ 253 ∧
    ∀ c ∈ r, isWordChar c = true

/-! ## DatabaseService (docs/LOCAL_DEVELOPMENT_SETUP.md, databaseService.js)

The SQLite state is modelled relationally: one list per table, `Option`
for nullable columns, `ℚ` for SQLite numbers.  Statement results follow the
prepared statements of `prepareStatements`. -/

/-- A row of the `tokens` table (columns the service reads; `token` holds
the stored SHA-256 hex digest of the plaintext key). -/
structure TokenRow where
  id : Nat
  userId : Nat
  name : String
  createdAt : String
  lastUsed : Option String
  token : String
deriving DecidableEq

/-- A row of the `users` table. -/
structure UserRow where
  id : Nat
  email : String
  name : String
deriving DecidableEq

/-- A row of the `credits` table. -/
structure CreditRow where
  userId : Nat
  balance : ℚ
  dailyAllocation : ℚ
  lastUpdated : Option String
deriving DecidableEq

/-- A row of the `usage_logs` table, as `insertUsageLog` writes it. -/
structure UsageLogRow where
  userId : Nat
  tokenId : Nat
  model : String
  inputTokens : ℚ
  outputTokens : ℚ
  cacheCreationTokens : ℚ
  cacheReadTokens : ℚ
  totalTokens : ℚ
  cost : ℚ
  requestId : Option String
  endpoint : String
  statusCode : Nat
deriving DecidableEq

/-- A row of the `usage_daily` table; `updateDailyUsage` upserts on the
unique key `(user_id, date)`. -/
structure DailyRow where
  userId : Nat
  date : String
  totalInputTokens : ℚ
  totalOutputTokens : ℚ
  totalCacheCreationTokens : ℚ
  totalCacheReadTokens : ℚ
  totalCost : ℚ
  requestCount : ℚ
deriving DecidableEq

/-- The database state the service reads and writes. -/
structure Db where
  tokens : List TokenRow
  users : List UserRow
  credits : List CreditRow
  usageLogs : List UsageLogRow
  usageDaily : List DailyRow
deriving DecidableEq

/-- The row shape the `getTokenByHash` statement selects (tokens joined with
users, left-joined with credits; credit columns are NULL when the user has
no credits row). -/
structure TokenInfo where
  id : Nat
  userId : Nat
  name : String
  createdAt : String
  lastUsed : Option String
  userEmail : String
  userName : String
  creditsBalance : Option ℚ
  dailyAllocation : Option ℚ
  lastUpdated : Option String
deriving DecidableEq

/-- Build the joined row for one token: inner join to its user, left join to
the user's credits. -/
def joinToken (db : Db) (t : TokenRow) : Option TokenInfo :=
  (db.users.find? (fun u => u.id == t.userId)).map (fun u =>
    let c := db.credits.find? (fun cr => cr.userId == t.userId)
    { id := t.id, userId := t.userId, name := t.name, createdAt := t.createdAt,
      lastUsed := t.lastUsed, userEmail := u.email, userName := u.name,
      creditsBalance := c.map (fun cr => cr.balance),
      dailyAllocation := c.map (fun cr => cr.dailyAllocation),
      lastUpdated := c.bind (fun cr => cr.lastUpdated) })

/-- The `getTokenByHash` prepared statement with `.get(h)`: the row for the
first token whose stored `token` column equals `h`.  (With at most one token
per hash and a users row for every token -- the uniqueness and foreign-key
assumptions of the schema -- this agrees with the SQL join.) -/
def getTokenByHash (db : Db) (h : String) : Option TokenInfo :=
  match db.tokens.find? (fun t => t.token == h) with
  | none => none
  | some t => joinToken db t

/-- JavaScript truthiness of a nullable SQLite number: `null`/`undefined`
and `0` are falsy. -/
def jsTruthyQ (o : Option ℚ) : Bool :=
  match o with
  | none => false
  | some q => q != 0

/-- JavaScript `x || d` on a nullable number. -/
def jsOrQ (o : Option ℚ) (d : ℚ) : ℚ :=
  if jsTruthyQ o then o.getD 0 else d

/-- The `credits` sub-object `validateApiKey` returns. -/
structure CreditsInfo where
  balance : ℚ
  dailyAllocation : ℚ
  lastUpdated : Option String
deriving DecidableEq

/-- The `limits` sub-object `validateApiKey` returns. -/
structure LimitsInfo where
  maxTokensPerMinute : Nat
  maxRequestsPerMinute : Nat
  maxConcurrentRequests : Nat
  dailyCostLimit : ℚ
deriving DecidableEq

/-- The formatted record `validateApiKey` returns to the relay service. -/
structure ApiKeyRecord where
  id : String
  userId : Nat
  name : String
  userEmail : String
  userName : String
  active : Bool
  createdAt : String
  lastUsed : Option String
  credits : CreditsInfo
  limits : LimitsInfo
deriving DecidableEq

/-- The `dailyCostLimit` expression of `validateApiKey`:
`tokenInfo.credits_balance ? tokenInfo.credits_balance / 100 : 10`. -/
def dailyCostLimitOf (balance : Option ℚ) : ℚ :=
  if jsTruthyQ balance then balance.getD 0 / 100 else 10

/-- The object literal `validateApiKey` builds from a joined row
(docs/LOCAL_DEVELOPMENT_SETUP.md lines 550-572). -/
def formatTokenInfo (ti : TokenInfo) : ApiKeyRecord :=
  { id := "db_" ++ toString ti.id
    userId := ti.userId
    name := ti.name
    userEmail := ti.userEmail
    userName := ti.userName
    active := true
    createdAt := ti.createdAt
    lastUsed := ti.lastUsed
    credits := { balance := jsOrQ ti.creditsBalance 0
                 dailyAllocation := jsOrQ ti.dailyAllocation 0
                 lastUpdated := ti.lastUpdated }
    limits := { maxTokensPerMinute := 100000
                maxRequestsPerMinute := 100
                maxConcurrentRequests := 5
                dailyCostLimit := dailyCostLimitOf ti.creditsBalance } }

/-- The method `DatabaseService.validateApiKey(apiKey)` (lines 523-577): SHA-256 the
plaintext, look the digest up, return the formatted record or `null`. -/
def validateApiKey (db : Db) (apiKey : String) : Option ApiKeyRecord :=
  (getTokenByHash db (sha256HexS apiKey)).map formatTokenInfo

/-- The `updateLastUsed` prepared statement: set `last_used` of one token
row to the current time. -/
def updateLastUsed (db : Db) (tid : Nat) (now : String) : Db :=
  { db with tokens := db.tokens.map (fun t =>
      if t.id == tid then { t with lastUsed := some now } else t) }

/-- Validation together with its deferred `setImmediate` bump of
`last_used`: the record is built from the state read before the bump, the
bump itself runs after the return and its failure is caught and ignored.
`updateRan` is whether the deferred statement ran successfully. -/
def validateApiKeyFlow (db : Db) (apiKey : String) (now : String)
    (updateRan : Bool) : Option ApiKeyRecord × Db :=
  match getTokenByHash db (sha256HexS apiKey) with
  | none => (none, db)
  | some ti =>
      (some (formatTokenInfo ti), if updateRan then updateLastUsed db ti.id now else db)

/-- The input object of `recordUsage`, after its defaulting destructuring
(missing counters already replaced by `0`, endpoint by `'/v1/messages'`,
status code by `200`). -/
structure UsageData where
  userId : Nat
  tokenId : Nat
  model : String
  inputTokens : ℚ
  outputTokens : ℚ
  cacheCreationTokens : ℚ
  cacheReadTokens : ℚ
  cost : ℚ
  requestId : Option String
  endpoint : String
  statusCode : Nat
deriving DecidableEq

/-- The `usage_logs` row `recordUsage` inserts, with
`totalTokens = inputTokens + outputTokens + cacheCreationTokens + cacheReadTokens`
(docs/LOCAL_DEVELOPMENT_SETUP.md line 604). -/
def mkUsageLog (u : UsageData) : UsageLogRow :=
  { userId := u.userId
    tokenId := u.tokenId
    model := u.model
    inputTokens := u.inputTokens
    outputTokens := u.outputTokens
    cacheCreationTokens := u.cacheCreationTokens
    cacheReadTokens := u.cacheReadTokens
    totalTokens := u.inputTokens + u.outputTokens + u.cacheCreationTokens + u.cacheReadTokens
    cost := u.cost
    requestId := u.requestId
    endpoint := u.endpoint
    statusCode := u.statusCode }

/-- Whether a daily row carries the upsert key `(user_id, date)`. -/
def dailyKeyMatches (r : DailyRow) (uid : Nat) (d : String) : Bool :=
  r.userId == uid && r.date == d

/-- The `updateDailyUsage` upsert: on conflict on `(user_id, date)` add
every counter, otherwise insert a fresh row (lines 499-514). -/
def updateDailyUsage (rows : List DailyRow) (uid : Nat) (d : String)
    (inp outp cc cr cost req : ℚ) : List DailyRow :=
  if rows.any (fun r => dailyKeyMatches r uid d) then
    rows.map (fun r =>
      if dailyKeyMatches r uid d then
        { r with totalInputTokens := r.totalInputTokens + inp
                 totalOutputTokens := r.totalOutputTokens + outp
                 totalCacheCreationTokens := r.totalCacheCreationTokens + cc
                 totalCacheReadTokens := r.totalCacheReadTokens + cr
                 totalCost := r.totalCost + cost
                 requestCount := r.requestCount + req }
      else r)
  else
    rows ++ [{ userId := uid, date := d, totalInputTokens := inp,
               totalOutputTokens := outp, totalCacheCreationTokens := cc,
               totalCacheReadTokens := cr, totalCost := cost, requestCount := req }]

/-- The `getUserCredits` prepared statement. -/
def getUserCredits (credits : List CreditRow) (uid : Nat) : Option CreditRow :=
  credits.find? (fun c => c.userId == uid)

/-- The `updateCreditsBalance` prepared statement: set the balance of one
user's credits row. -/
def updateCreditsBalance (credits : List CreditRow) (newBal : ℚ) (uid : Nat) :
    List CreditRow :=
  credits.map (fun c => if c.userId == uid then { c with balance := newBal } else c)

/-- The method `DatabaseService.recordUsage(usageData)` (lines 583-656): one
transaction inserting the usage log, upserting the daily aggregate for
`today` with request count 1, and clamping the credit deduction at zero
(`Math.max(0, credits.balance - cost)`).  `today` stands for
`new Date().toISOString().split('T')[0]`. -/
def recordUsage (db : Db) (u : UsageData) (today : String) : Db :=
  let db1 := { db with usageLogs := db.usageLogs ++ [mkUsageLog u] }
  let newDaily :=
    updateDailyUsage db1.usageDaily u.userId today u.inputTokens u.outputTokens
      u.cacheCreationTokens u.cacheReadTokens u.cost 1
  let db2 := { db1 with usageDaily := newDaily }
  match getUserCredits db2.credits u.userId with
  | some c =>
      let newCredits := updateCreditsBalance db2.credits (max 0 (c.balance - u.cost)) u.userId
      { db2 with credits := newCredits }
  | none => db2

/-! ## Health router, `/readiness` (src/routes/health.js) -/

/-- One entry of `monitoringService.healthStatus.services`. -/
structure ServiceHealth where
  healthy : Bool
deriving DecidableEq

/-- The `services` map of the monitoring health status; a service that has
no entry reads as `undefined` through optional chaining. -/
structure HealthServices where
  redis : Option ServiceHealth
  database : Option ServiceHealth
deriving DecidableEq

/-- The object `monitoringService.healthStatus` as the readiness handler reads it. -/
structure HealthStatus where
  healthy : Bool
  services : HealthServices
deriving DecidableEq

/-- The JSON body and status the `/readiness` handler sends. -/
structure ReadinessResponse where
  status : Nat
  ready : Bool
  redis : Bool
  database : Bool
deriving DecidableEq

/-- Optional chaining `health.services.x?.healthy === true` and `… || false`: both collapse a
missing service entry to `false`. -/
def optHealthy (o : Option ServiceHealth) : Bool :=
  match o with
  | some s => s.healthy
  | none => false

/-- The `GET /readiness` handler (src/routes/health.js lines 339-358):
ready, and HTTP 200, exactly when Redis is reported healthy; 503 otherwise. -/
def readinessHandler (h : HealthStatus) : ReadinessResponse :=
  let isReady := optHealthy h.services.redis
  { status := if isReady then 200 else 503
    ready := isReady
    redis := optHealthy h.services.redis
    database := optHealthy h.services.database }


/-! ## Concrete states used by witnesses and counterexamples -/

/-- A stored token whose `token` column is the digest of a demo key. -/
def c1Token : TokenRow :=
  { id := 7, userId := 3, name := "w1", createdAt := "2025-07-29",
    lastUsed := none, token := sha256HexS "cr_c1_witness_key_000001" }

/-- The owner of `c1Token`. -/
def c1User : UserRow := { id := 3, email := "w@example.com", name := "W" }

/-- A one-token database for the validation characterization. -/
def c1Db : Db :=
  { tokens := [c1Token], users := [c1User], credits := [],
    usageLogs := [], usageDaily := [] }

/-- A stored token for the overdraw scenario. -/
def c4Token : TokenRow :=
  { id := 1, userId := 1, name := "demo", createdAt := "2025-07-29",
    lastUsed := none, token := sha256HexS "cr_c4_demo_key_00000000" }

/-- The owner of `c4Token`. -/
def c4User : UserRow := { id := 1, email := "dev@example.com", name := "Dev" }

/-- A credits row with balance 5, about to be overdrawn. -/
def c4Credit : CreditRow :=
  { userId := 1, balance := 5, dailyAllocation := 5, lastUpdated := none }

/-- A database holding one key with 5 credits. -/
def c4Db : Db :=
  { tokens := [c4Token], users := [c4User], credits := [c4Credit],
    usageLogs := [], usageDaily := [] }

/-- A commit of cost 10 against the 5-credit balance of `c4Db`. -/
def c4Usage : UsageData :=
  { userId := 1, tokenId := 1, model := "claude-3-5-sonnet",
    inputTokens := 100, outputTokens := 200, cacheCreationTokens := 0,
    cacheReadTokens := 0, cost := 10, requestId := none,
    endpoint := "/v1/messages", statusCode := 200 }

/-- An empty database for the daily-rollup keying scenario. -/
def c7Db : Db :=
  { tokens := [], users := [], credits := [], usageLogs := [], usageDaily := [] }

/-- A commit for user 1, API key 1, one model. -/
def c7UsageA : UsageData :=
  { userId := 1, tokenId := 1, model := "claude-3-opus",
    inputTokens := 1, outputTokens := 2, cacheCreationTokens := 3,
    cacheReadTokens := 4, cost := 5, requestId := none,
    endpoint := "/v1/messages", statusCode := 200 }

/-- A commit for the same user and day, but a different API key and model. -/
def c7UsageB : UsageData :=
  { userId := 1, tokenId := 2, model := "claude-3-haiku",
    inputTokens := 10, outputTokens := 20, cacheCreationTokens := 30,
    cacheReadTokens := 40, cost := 50, requestId := none,
    endpoint := "/v1/messages", statusCode := 200 }

/-- A singleton daily table for the rollup monotonicity witness. -/
def c7Row : DailyRow :=
  { userId := 1, date := "2025-07-29", totalInputTokens := 7,
    totalOutputTokens := 8, totalCacheCreationTokens := 0,
    totalCacheReadTokens := 0, totalCost := 2, requestCount := 1 }

/-- A database whose daily table already holds `c7Row`. -/
def c7Db2 : Db :=
  { tokens := [], users := [], credits := [], usageLogs := [], usageDaily := [c7Row] }

/-- A stored token for the cost-limit witness. -/
def c10Token : TokenRow :=
  { id := 2, userId := 4, name := "w10", createdAt := "2025-07-29",
    lastUsed := none, token := sha256HexS "sk_c10_witness_key_00001" }

/-- The owner of `c10Token`. -/
def c10User : UserRow := { id := 4, email := "x@example.com", name := "X" }

/-- A credits row with a positive balance of 250. -/
def c10Credit : CreditRow :=
  { userId := 4, balance := 250, dailyAllocation := 100, lastUpdated := none }

/-- A database holding one key with 250 credits. -/
def c10Db : Db :=
  { tokens := [c10Token], users := [c10User], credits := [c10Credit],
    usageLogs := [], usageDaily := [] }

/-- The joined row `getTokenByHash` produces on `c10Db`. -/
def c10TokenInfo : TokenInfo :=
  { id := 2, userId := 4, name := "w10", createdAt := "2025-07-29",
    lastUsed := none, userEmail := "x@example.com", userName := "X",
    creditsBalance := some 250, dailyAllocation := some 100, lastUpdated := none }

/-- The record validation returns on `c10Db`. -/
def c10Record : ApiKeyRecord := formatTokenInfo c10TokenInfo

/-- The credits row after the clamped commit of `c4Usage`. -/
def c4CreditAfter : CreditRow :=
  { userId := 1, balance := 0, dailyAllocation := 5, lastUpdated := none }

/-- The single merged daily row after the two commits of `c7UsageA` and
`c7UsageB`. -/
def c7MergedRow : DailyRow :=
  { userId := 1, date := "2025-07-29", totalInputTokens := 11,
    totalOutputTokens := 22, totalCacheCreationTokens := 33,
    totalCacheReadTokens := 44, totalCost := 55, requestCount := 2 }

/-! ## Helper lemmas about the embedded primitives -/

theorem bytesToHex_length (l : List Nat) : (bytesToHex l).length = 2 * l.length := by
  induction l with
  | nil => rfl
  | cons b t ih => simp [bytesToHex, List.flatMap_cons] at ih ⊢; omega

theorem hexDigit_mem : ∀ n < 16, isHexDigitChar (hexDigit n) = true := by
  decide

theorem bytesToHex_hex (l : List Nat) (hb : ∀ b ∈ l, b < 256) :
    ∀ c ∈ bytesToHex l, isHexDigitChar c = true := by
  intro c hc
  simp only [bytesToHex, List.mem_flatMap] at hc
  obtain ⟨b, hbl, hcb⟩ := hc
  have hblt := hb b hbl
  have h1 : b / 16 < 16 := by omega
  have h2 : b % 16 < 16 := Nat.mod_lt _ (by omega)
  simp only [List.mem_cons, List.not_mem_nil, or_false] at hcb
  rcases hcb with rfl | rfl
  · exact hexDigit_mem _ h1
  · exact hexDigit_mem _ h2

theorem sha256_length (msg : List Nat) : (sha256 msg).length = 32 := by
  simp [sha256, word32Bytes]

theorem word32Bytes_lt (x : Nat) : ∀ b ∈ word32Bytes x, b < 256 := by
  intro b hb
  simp only [word32Bytes, List.mem_cons, List.not_mem_nil, or_false] at hb
  rcases hb with rfl | rfl | rfl | rfl <;> exact Nat.mod_lt _ (by omega)

theorem sha256_bytes_lt (msg : List Nat) : ∀ b ∈ sha256 msg, b < 256 := by
  intro b hb
  simp only [sha256, List.mem_append] at hb
  rcases hb with ((((((h | h) | h) | h) | h) | h) | h) | h <;>
    exact word32Bytes_lt _ _ h

theorem sha256HexS_length (s : String) : (sha256HexS s).length = 64 := by
  show (bytesToHex (sha256 (strBytes s))).length = 64
  rw [bytesToHex_length, sha256_length]

theorem sha256HexS_hex (s : String) :
    ∀ c ∈ (sha256HexS s).data, isHexDigitChar c = true := by
  intro c hc
  exact bytesToHex_hex _ (sha256_bytes_lt _) c hc

theorem sha512_length (msg : List Nat) : (sha512 msg).length = 64 := by
  simp [sha512, word64Bytes]

theorem hmacSha512_length (key msg : List Nat) : (hmacSha512 key msg).length = 64 :=
  sha512_length _

theorem pbkdf2Iter_length (pw : List Nat) :
    ∀ n u acc, acc.length = 64 → (pbkdf2Iter pw n u acc).length = 64 := by
  intro n
  induction n with
  | zero => intro u acc h; exact h
  | succ m ih =>
      intro u acc h
      simp only [pbkdf2Iter]
      apply ih
      simp [xorBytes, h, hmacSha512_length]

theorem pbkdf2F_length (pw salt : List Nat) (c i : Nat) :
    (pbkdf2F pw salt c i).length = 64 :=
  pbkdf2Iter_length pw _ _ _ (hmacSha512_length _ _)

theorem pbkdf2Sha512_64_length (pw salt : List Nat) (c : Nat) :
    (pbkdf2Sha512 pw salt c 64).length = 64 := by
  have h1 : (64 + 63) / 64 = 1 := by norm_num
  simp [pbkdf2Sha512, h1, List.range_succ, pbkdf2F_length]

theorem hashApiKey_hash_length (k s : String) : (hashApiKey k s).hash.length = 128 := by
  show (bytesToHex (pbkdf2Sha512 (strBytes k) (strBytes s) 10000 64)).length = 128
  rw [bytesToHex_length, pbkdf2Sha512_64_length]

theorem lor_eq_zero_pair {a b : Nat} : a ||| b = 0 ↔ a = 0 ∧ b = 0 := by
  constructor
  · intro h
    constructor
    · by_contra ha
      obtain ⟨i, hi⟩ := Nat.ne_zero_implies_bit_true ha
      have hb : (a ||| b).testBit i = true := by
        simp [Nat.testBit_lor, hi]
      rw [h] at hb
      simp [Nat.zero_testBit] at hb
    · by_contra hb
      obtain ⟨i, hi⟩ := Nat.ne_zero_implies_bit_true hb
      have ha : (a ||| b).testBit i = true := by
        simp [Nat.testBit_lor, hi]
      rw [h] at ha
      simp [Nat.zero_testBit] at ha
  · rintro ⟨rfl, rfl⟩
    rfl

theorem foldl_lor_xor (a : List Nat) :
    ∀ (b : List Nat) (acc : Nat), a.length = b.length →
      ((a.zip b).foldl (fun ac pr => ac ||| (pr.1 ^^^ pr.2)) acc = 0 ↔
        acc = 0 ∧ a = b) := by
  induction a with
  | nil =>
      intro b acc h
      cases b with
      | nil => simp
      | cons y ys => simp at h
  | cons x xs ih =>
      intro b acc h
      cases b with
      | nil => simp at h
      | cons y ys =>
          have hlen : xs.length = ys.length := by simpa using h
          simp only [List.zip_cons_cons, List.foldl_cons]
          rw [ih ys _ hlen, lor_eq_zero_pair, Nat.xor_eq_zero]
          constructor
          · rintro ⟨⟨hacc, hxy⟩, htl⟩
            exact ⟨hacc, by rw [hxy, htl]⟩
          · rintro ⟨hacc, heq⟩
            obtain ⟨h1, h2⟩ := List.cons.injEq x xs y ys ▸ heq
            exact ⟨⟨hacc, h1⟩, h2⟩

/-! ## Claim theorems -/

/-- Claim C9: `constantTimeCompare` is total and returns `true` exactly when
both arguments are strings of equal byte length whose byte sequences are
identical; on any other pair, non-strings and length mismatches included,
it returns `false` rather than throwing. -/
theorem constantTimeCompare_iff (x y : JsVal) :
    constantTimeCompare x y = true ↔
      ∃ a b, x = JsVal.jstr a ∧ y = JsVal.jstr b ∧ a.length = b.length ∧ a = b := by
  cases x with
  | jother => simp [constantTimeCompare]
  | jstr a =>
      cases y with
      | jother => simp [constantTimeCompare]
      | jstr b =>
          by_cases h : a.length = b.length
          · have := foldl_lor_xor a b 0 h
            simp [constantTimeCompare, h, timingSafeEqual, this]
          · simp [constantTimeCompare, h]

/-- Claim C6: the readiness endpoint answers HTTP 200 with `ready: true`
exactly when the Redis service is currently reported healthy, and HTTP 503
with `ready: false` otherwise, whatever the health-status state. -/
theorem readinessHandler_iff (h : HealthStatus) :
    ((readinessHandler h).status = 200 ∧ (readinessHandler h).ready = true ↔
      optHealthy h.services.redis = true) ∧
    ((readinessHandler h).status = 503 ∧ (readinessHandler h).ready = false ↔
      optHealthy h.services.redis = false) := by
  cases hr : optHealthy h.services.redis <;> simp [readinessHandler, hr]

/-- Claim C5: every usage record committed by `recordUsage` is appended with
`totalTokens` equal to the sum of its input, output, cache-creation and
cache-read token counts. -/
theorem recordUsage_totalTokens (db : Db) (u : UsageData) (today : String) :
    (recordUsage db u today).usageLogs = db.usageLogs ++ [mkUsageLog u] ∧
    (mkUsageLog u).totalTokens =
      u.inputTokens + u.outputTokens + u.cacheCreationTokens + u.cacheReadTokens := by
  refine ⟨?_, rfl⟩
  rcases h : getUserCredits db.credits u.userId with _ | c <;>
    simp [recordUsage, h, updateCreditsBalance]

/-- Claim C8: the `lastUsedAt` bump is fire-and-forget: the record
validation returns is the same whether the deferred `updateLastUsed`
statement runs or fails, a failed bump leaves the state untouched, and a
successful bump changes nothing but the `last_used` column of the matched
token row. -/
theorem validateApiKeyFlow_frame (db : Db) (apiKey now : String) (tid : Nat) :
    ((validateApiKeyFlow db apiKey now true).1 = validateApiKey db apiKey ∧
     (validateApiKeyFlow db apiKey now false).1 = validateApiKey db apiKey ∧
     (validateApiKeyFlow db apiKey now false).2 = db) ∧
    ((updateLastUsed db tid now).users = db.users ∧
     (updateLastUsed db tid now).credits = db.credits ∧
     (updateLastUsed db tid now).usageLogs = db.usageLogs ∧
     (updateLastUsed db tid now).usageDaily = db.usageDaily ∧
     (updateLastUsed db tid now).tokens.length = db.tokens.length ∧
     ∀ t ∈ db.tokens, ∃ t2 ∈ (updateLastUsed db tid now).tokens,
       t2.id = t.id ∧ t2.userId = t.userId ∧ t2.name = t.name ∧
       t2.createdAt = t.createdAt ∧ t2.token = t.token ∧
       (t.id ≠ tid → t2 = t)) := by
  constructor
  · unfold validateApiKeyFlow validateApiKey
    cases getTokenByHash db (sha256HexS apiKey) <;> simp
  · refine ⟨rfl, rfl, rfl, rfl, by simp [updateLastUsed], ?_⟩
    intro t ht
    refine ⟨if t.id == tid then { t with lastUsed := some now } else t,
      List.mem_map_of_mem _ ht, ?_⟩
    by_cases h : t.id = tid
    · simp [h]
    · simp [h]

/-- Claim C2 (amended): the hash the database validation path compares is
the SHA-256 hex digest of the plaintext key, always a fixed 64-character
lowercase hexadecimal string; the `SecurityUtils.hashApiKey` /
`verifyApiKey` helpers instead derive a salted PBKDF2-HMAC-SHA512 hash,
whose hex form has 128 characters. -/
theorem storedHash_shapes (p k s : String) (db : Db) :
    validateApiKey db p = (getTokenByHash db (sha256HexS p)).map formatTokenInfo ∧
    (sha256HexS p).length = 64 ∧
    (∀ c ∈ (sha256HexS p).data, isHexDigitChar c = true) ∧
    (hashApiKey k s).hash.length = 128 :=
  ⟨rfl, sha256HexS_length p, sha256HexS_hex p, hashApiKey_hash_length k s⟩

theorem getUserCredits_update (credits : List CreditRow) (v : ℚ) (uid : Nat) :
    getUserCredits (updateCreditsBalance credits v uid) uid =
      (getUserCredits credits uid).map (fun c => { c with balance := v }) := by
  induction credits with
  | nil => rfl
  | cons c t ih =>
      by_cases h : c.userId = uid
      · unfold getUserCredits updateCreditsBalance
        rw [List.map_cons, if_pos (by simpa using h),
          List.find?_cons_of_pos _ (by simp [h]),
          List.find?_cons_of_pos _ (by simp [h])]
        rfl
      · unfold getUserCredits updateCreditsBalance at ih ⊢
        rw [List.map_cons, if_neg (by simpa using h),
          List.find?_cons_of_neg _ (by simp [h]),
          List.find?_cons_of_neg _ (by simp [h])]
        exact ih

/-- Claim C4 (amended): a usage commit with non-negative cost updates the
key owner's credit balance to `max 0 (balance - cost)`, which is never
negative; no overdraw or disabled flag is set -- the token rows are
untouched by the commit, and a missing credits row is left missing. -/
theorem recordUsage_clamps_at_zero (db : Db) (u : UsageData) (today : String)
    (hcost : 0 ≤ u.cost) :
    (recordUsage db u today).tokens = db.tokens ∧
    (∀ c, getUserCredits db.credits u.userId = some c →
      getUserCredits (recordUsage db u today).credits u.userId =
        some { c with balance := max 0 (c.balance - u.cost) } ∧
      (0 : ℚ) ≤ max 0 (c.balance - u.cost)) ∧
    (getUserCredits db.credits u.userId = none →
      (recordUsage db u today).credits = db.credits) := by
  refine ⟨?_, ?_, ?_⟩
  · rcases h : getUserCredits db.credits u.userId with _ | c <;>
      simp [recordUsage, h, updateCreditsBalance]
  · intro c hc
    constructor
    · simp only [recordUsage, hc]
      rw [getUserCredits_update, hc]
      rfl
    · exact le_max_left 0 _
  · intro hc
    simp [recordUsage, hc]

theorem allowedStarts_length {p : List Char} (hp : p ∈ allowedStarts) :
    p.length = 3 := by
  simp only [allowedStarts, List.mem_cons, List.not_mem_nil, or_false] at hp
  rcases hp with rfl | rfl | rfl <;> rfl

/-- Claim C3: the plaintext format guard accepts a string exactly when it
matches `^(sk_|cr_|pk_)[A-Za-z0-9_]{17,253}$`: one of the three-character
starts followed by 17 to 253 word characters (total length 20 to 256). -/
theorem isValidApiKeyFormat_iff (s : List Char) :
    isValidApiKeyFormat s = true ↔ MatchesGuardPattern s := by
  constructor
  · intro h
    unfold isValidApiKeyFormat at h
    split_ifs at h with h1 h2 h3 h4 <;> try cases h
    simp at h2 h3 h4
    obtain ⟨p, hp, hpre⟩ := h3
    obtain ⟨r, rfl⟩ := hpre
    have hp3 : p.length = 3 := allowedStarts_length hp
    have hlen : (p ++ r).length = 3 + r.length := by simp [hp3]
    have hdrop : (p ++ r).drop 3 = r := by rw [← hp3, List.drop_left]
    rw [hdrop] at h4
    exact ⟨p, r, rfl, hp, by omega, by omega, h4.2⟩
  · rintro ⟨p, r, rfl, hp, h17, h253, hall⟩
    have hp3 : p.length = 3 := allowedStarts_length hp
    have hlen : (p ++ r).length = 3 + r.length := by simp [hp3]
    have hdrop : (p ++ r).drop 3 = r := by rw [← hp3, List.drop_left]
    have hc1 : ¬ ((p ++ r).isEmpty = true) := by
      rcases p with _ | ⟨c, p0⟩
      · simp at hp3
      · simp
    have hc2 : ¬ ((decide ((p ++ r).length < 20) || decide (256 < (p ++ r).length)) = true) := by
      rw [hlen]
      simp only [Bool.or_eq_true, decide_eq_true_eq, not_or, not_lt]
      omega
    have hany : allowedStarts.any (fun q => q.isPrefixOf (p ++ r)) = true :=
      List.any_eq_true.mpr ⟨p, hp, List.isPrefixOf_iff_prefix.mpr ⟨r, rfl⟩⟩
    have hc3 : ¬ ((! allowedStarts.any fun q => q.isPrefixOf (p ++ r)) = true) := by
      simp [hany]
    have hall2 : ((p ++ r).drop 3).all isWordChar = true := by
      rw [hdrop]
      exact List.all_eq_true.mpr hall
    have hne2 : ((p ++ r).drop 3).isEmpty = false := by
      rw [hdrop]
      rcases r with _ | ⟨c, r0⟩
      · simp at h17
      · rfl
    have hc4 : ¬ ((! (! ((p ++ r).drop 3).isEmpty && ((p ++ r).drop 3).all isWordChar)) = true) := by
      simp [hall2, hne2]
    unfold isValidApiKeyFormat
    rw [if_neg hc1, if_neg hc2, if_neg hc3, if_neg hc4]

theorem countP_le_one_of_pairwise (l : List TokenRow) (hs : String)
    (huniq : l.Pairwise (fun t1 t2 => t1.token ≠ t2.token)) :
    l.countP (fun t => t.token == hs) ≤ 1 := by
  induction l with
  | nil => simp
  | cons t ts ih =>
      obtain ⟨hhd, htl⟩ := List.pairwise_cons.mp huniq
      by_cases hp : t.token = hs
      · have hz : ts.countP (fun t2 => t2.token == hs) = 0 := by
          rw [List.countP_eq_zero]
          intro t2 ht2
          simp only [beq_iff_eq]
          rw [← hp]
          exact fun he => hhd t2 ht2 he.symm
        have hpa : (fun t2 : TokenRow => t2.token == hs) t = true := by simp [hp]
        rw [List.countP_cons_of_pos (fun t2 : TokenRow => t2.token == hs) ts hpa, hz]
      · have hpn : ¬ ((fun t2 : TokenRow => t2.token == hs) t = true) := by simp [hp]
        rw [List.countP_cons_of_neg (fun t2 : TokenRow => t2.token == hs) ts hpn]
        exact ih htl

/-- Claim C1: validation computes the SHA-256 hex digest of the plaintext
and, on a database whose stored digests are pairwise distinct and whose
tokens all have a users row (the schema's uniqueness and foreign-key
assumptions), returns the stored key record exactly when one stored token
record carries that digest, and returns `null` exactly when none does. -/
theorem validateApiKey_characterization (db : Db) (p : String)
    (huniq : db.tokens.Pairwise (fun t1 t2 => t1.token ≠ t2.token))
    (hfk : ∀ t ∈ db.tokens, ∃ u ∈ db.users, u.id = t.userId) :
    ((∃ r, validateApiKey db p = some r) ↔
      db.tokens.countP (fun t => t.token == sha256HexS p) = 1) ∧
    (validateApiKey db p = none ↔
      db.tokens.countP (fun t => t.token == sha256HexS p) = 0) ∧
    (∀ r, validateApiKey db p = some r →
      ∃ t ∈ db.tokens, t.token = sha256HexS p ∧
        r.id = "db_" ++ toString t.id ∧ r.userId = t.userId ∧ r.name = t.name) := by
  rcases hf : db.tokens.find? (fun t => t.token == sha256HexS p) with _ | t
  · have hnone : ∀ t ∈ db.tokens, ¬ ((fun t => t.token == sha256HexS p) t = true) := by
      intro t ht
      have := List.find?_eq_none.mp hf t ht
      simpa using this
    have hcount : db.tokens.countP (fun t => t.token == sha256HexS p) = 0 :=
      List.countP_eq_zero.mpr hnone
    have hval : validateApiKey db p = none := by
      simp [validateApiKey, getTokenByHash, hf]
    refine ⟨?_, ?_, ?_⟩
    · constructor
      · rintro ⟨r, hr⟩
        rw [hval] at hr
        cases hr
      · intro hc
        omega
    · simp [hval, hcount]
    · intro r hr
      rw [hval] at hr
      cases hr
  · have hmem := List.mem_of_find?_eq_some hf
    have hpred : t.token = sha256HexS p := by
      have := List.find?_some hf
      simpa using this
    obtain ⟨u, hu, huid⟩ := hfk t hmem
    have hsome : (db.users.find? (fun u2 => u2.id == t.userId)).isSome := by
      rw [List.find?_isSome]
      exact ⟨u, hu, by simp [huid]⟩
    obtain ⟨u2, hu2⟩ := Option.isSome_iff_exists.mp hsome
    have hti : joinToken db t = some
        { id := t.id, userId := t.userId, name := t.name,
          createdAt := t.createdAt, lastUsed := t.lastUsed,
          userEmail := u2.email, userName := u2.name,
          creditsBalance := (db.credits.find? (fun cr => cr.userId == t.userId)).map
            (fun cr => cr.balance),
          dailyAllocation := (db.credits.find? (fun cr => cr.userId == t.userId)).map
            (fun cr => cr.dailyAllocation),
          lastUpdated := (db.credits.find? (fun cr => cr.userId == t.userId)).bind
            (fun cr => cr.lastUpdated) } := by
      simp [joinToken, hu2]
    have hval : validateApiKey db p = some (formatTokenInfo
        { id := t.id, userId := t.userId, name := t.name,
          createdAt := t.createdAt, lastUsed := t.lastUsed,
          userEmail := u2.email, userName := u2.name,
          creditsBalance := (db.credits.find? (fun cr => cr.userId == t.userId)).map
            (fun cr => cr.balance),
          dailyAllocation := (db.credits.find? (fun cr => cr.userId == t.userId)).map
            (fun cr => cr.dailyAllocation),
          lastUpdated := (db.credits.find? (fun cr => cr.userId == t.userId)).bind
            (fun cr => cr.lastUpdated) }) := by
      simp [validateApiKey, getTokenByHash, hf, hti]
    have hcount : db.tokens.countP (fun t2 => t2.token == sha256HexS p) = 1 := by
      have hle := countP_le_one_of_pairwise db.tokens (sha256HexS p) huniq
      have hpos : 0 < db.tokens.countP (fun t2 => t2.token == sha256HexS p) :=
        List.countP_pos.mpr ⟨t, hmem, by simp [hpred]⟩
      omega
    refine ⟨?_, ?_, ?_⟩
    · exact ⟨fun _ => hcount, fun _ => ⟨_, hval⟩⟩
    · constructor
      · intro hn
        rw [hval] at hn
        cases hn
      · intro hc
        omega
    · intro r hr
      rw [hval] at hr
      obtain rfl := (Option.some_inj.mp hr).symm
      exact ⟨t, hmem, hpred, rfl, rfl, rfl⟩

/-- Witness for C1 at a one-token database holding the digest of a demo key. -/
theorem validateApiKey_characterization_witness :
    c1Db.tokens.Pairwise (fun t1 t2 => t1.token ≠ t2.token) ∧
    (∀ t ∈ c1Db.tokens, ∃ u ∈ c1Db.users, u.id = t.userId) ∧
    (((∃ r, validateApiKey c1Db "cr_c1_witness_key_000001" = some r) ↔
       c1Db.tokens.countP
         (fun t => t.token == sha256HexS "cr_c1_witness_key_000001") = 1) ∧
     (validateApiKey c1Db "cr_c1_witness_key_000001" = none ↔
       c1Db.tokens.countP
         (fun t => t.token == sha256HexS "cr_c1_witness_key_000001") = 0) ∧
     (∀ r, validateApiKey c1Db "cr_c1_witness_key_000001" = some r →
       ∃ t ∈ c1Db.tokens, t.token = sha256HexS "cr_c1_witness_key_000001" ∧
         r.id = "db_" ++ toString t.id ∧ r.userId = t.userId ∧ r.name = t.name)) :=
  ⟨by simp [c1Db], by simp [c1Db, c1Token, c1User],
   validateApiKey_characterization c1Db "cr_c1_witness_key_000001"
     (by simp [c1Db]) (by simp [c1Db, c1Token, c1User])⟩

/-- Claim C10: a record accepted by database validation carries
`dailyCostLimit = balance / 100` when the credit balance is positive and
the default `10` when the balance is zero, NULL or absent; the returned
limit is never `0`. -/
theorem validateApiKey_dailyCostLimit (db : Db) (p : String) (r : ApiKeyRecord)
    (h : validateApiKey db p = some r) :
    r.limits.dailyCostLimit ≠ 0 ∧
    ∃ ti, getTokenByHash db (sha256HexS p) = some ti ∧
      r.limits.dailyCostLimit = dailyCostLimitOf ti.creditsBalance ∧
      (∀ q, ti.creditsBalance = some q → 0 < q →
        r.limits.dailyCostLimit = q / 100) ∧
      ((ti.creditsBalance = none ∨ ti.creditsBalance = some 0) →
        r.limits.dailyCostLimit = 10) := by
  rcases hg : getTokenByHash db (sha256HexS p) with _ | ti
  · rw [validateApiKey, hg] at h
    cases h
  · have hr : r = formatTokenInfo ti := by
      rw [validateApiKey, hg] at h
      exact (Option.some_inj.mp h).symm
    subst hr
    refine ⟨?_, ti, rfl, rfl, ?_, ?_⟩
    · show dailyCostLimitOf ti.creditsBalance ≠ 0
      rcases hb : ti.creditsBalance with _ | q
      · simp [dailyCostLimitOf, jsTruthyQ]
      · by_cases hq : q = 0
        · simp [dailyCostLimitOf, jsTruthyQ, hq]
        · simp [dailyCostLimitOf, jsTruthyQ, hq]
    · intro q hq hpos
      show dailyCostLimitOf ti.creditsBalance = q / 100
      rw [hq]
      simp [dailyCostLimitOf, jsTruthyQ, ne_of_gt hpos]
    · intro hb
      show dailyCostLimitOf ti.creditsBalance = 10
      rcases hb with hb | hb <;> rw [hb] <;> simp [dailyCostLimitOf, jsTruthyQ]

/-- Witness for C10 at a one-token database with a positive balance of 250:
validation succeeds and the returned limit is 250 / 100. -/
theorem validateApiKey_dailyCostLimit_witness :
    validateApiKey c10Db "sk_c10_witness_key_00001" = some c10Record ∧
    (c10Record.limits.dailyCostLimit ≠ 0 ∧
     ∃ ti, getTokenByHash c10Db (sha256HexS "sk_c10_witness_key_00001") = some ti ∧
       c10Record.limits.dailyCostLimit = dailyCostLimitOf ti.creditsBalance ∧
       (∀ q, ti.creditsBalance = some q → 0 < q →
         c10Record.limits.dailyCostLimit = q / 100) ∧
       ((ti.creditsBalance = none ∨ ti.creditsBalance = some 0) →
         c10Record.limits.dailyCostLimit = 10)) :=
  ⟨by simp [validateApiKey, getTokenByHash, c10Db, c10Token, List.find?_cons,
      joinToken, c10User, c10Credit, c10Record, c10TokenInfo],
   validateApiKey_dailyCostLimit c10Db "sk_c10_witness_key_00001" c10Record
     (by simp [validateApiKey, getTokenByHash, c10Db, c10Token, List.find?_cons,
       joinToken, c10User, c10Credit, c10Record, c10TokenInfo])⟩

theorem recordUsage_usageDaily (db : Db) (u : UsageData) (today : String) :
    (recordUsage db u today).usageDaily =
      updateDailyUsage db.usageDaily u.userId today u.inputTokens u.outputTokens
        u.cacheCreationTokens u.cacheReadTokens u.cost 1 := by
  rcases h : getUserCredits db.credits u.userId with _ | c <;> simp [recordUsage, h]

theorem dailyKeyMatches_iff (r : DailyRow) (uid : Nat) (d : String) :
    dailyKeyMatches r uid d = true ↔ r.userId = uid ∧ r.date = d := by
  simp [dailyKeyMatches]

/-- Claim C7 (amended): a usage commit with non-negative token counts and
cost never decreases any counter of the daily aggregate: every existing
row maps to a row with the same `(user_id, date)` key and
componentwise-greater-or-equal counters, and rows not carrying the
commit's `(user_id, date)` key are unchanged. -/
theorem recordUsage_daily_monotone (db : Db) (u : UsageData) (today : String)
    (h1 : 0 ≤ u.inputTokens) (h2 : 0 ≤ u.outputTokens)
    (h3 : 0 ≤ u.cacheCreationTokens) (h4 : 0 ≤ u.cacheReadTokens)
    (h5 : 0 ≤ u.cost) :
    ∀ r ∈ db.usageDaily, ∃ r2 ∈ (recordUsage db u today).usageDaily,
      r2.userId = r.userId ∧ r2.date = r.date ∧
      r.totalInputTokens ≤ r2.totalInputTokens ∧
      r.totalOutputTokens ≤ r2.totalOutputTokens ∧
      r.totalCacheCreationTokens ≤ r2.totalCacheCreationTokens ∧
      r.totalCacheReadTokens ≤ r2.totalCacheReadTokens ∧
      r.totalCost ≤ r2.totalCost ∧
      r.requestCount ≤ r2.requestCount ∧
      (¬ (r.userId = u.userId ∧ r.date = today) → r2 = r) := by
  intro r hr
  rw [recordUsage_usageDaily]
  unfold updateDailyUsage
  by_cases hany : db.usageDaily.any (fun r0 => dailyKeyMatches r0 u.userId today) = true
  · rw [if_pos hany]
    refine ⟨if dailyKeyMatches r u.userId today then
        { r with totalInputTokens := r.totalInputTokens + u.inputTokens
                 totalOutputTokens := r.totalOutputTokens + u.outputTokens
                 totalCacheCreationTokens := r.totalCacheCreationTokens + u.cacheCreationTokens
                 totalCacheReadTokens := r.totalCacheReadTokens + u.cacheReadTokens
                 totalCost := r.totalCost + u.cost
                 requestCount := r.requestCount + 1 }
      else r, List.mem_map_of_mem _ hr, ?_⟩
    by_cases hk : dailyKeyMatches r u.userId today = true
    · rw [if_pos hk]
      refine ⟨rfl, rfl, le_add_of_nonneg_right h1, le_add_of_nonneg_right h2,
        le_add_of_nonneg_right h3, le_add_of_nonneg_right h4,
        le_add_of_nonneg_right h5, le_add_of_nonneg_right (by norm_num), ?_⟩
      intro hcon
      exact absurd ((dailyKeyMatches_iff r u.userId today).mp hk) hcon
    · rw [if_neg hk]
      exact ⟨rfl, rfl, le_refl _, le_refl _, le_refl _, le_refl _, le_refl _,
        le_refl _, fun _ => rfl⟩
  · rw [if_neg hany]
    exact ⟨r, List.mem_append_left _ hr, rfl, rfl, le_refl _, le_refl _, le_refl _,
      le_refl _, le_refl _, le_refl _, fun _ => rfl⟩

/-- Witness for the amended C7 at a singleton daily table. -/
theorem recordUsage_daily_monotone_witness :
    ((0 : ℚ) ≤ c7UsageA.inputTokens ∧ (0 : ℚ) ≤ c7UsageA.outputTokens ∧
     (0 : ℚ) ≤ c7UsageA.cacheCreationTokens ∧ (0 : ℚ) ≤ c7UsageA.cacheReadTokens ∧
     (0 : ℚ) ≤ c7UsageA.cost ∧ c7Row ∈ c7Db2.usageDaily) ∧
    (∃ r2 ∈ (recordUsage c7Db2 c7UsageA "2025-07-29").usageDaily,
      r2.userId = c7Row.userId ∧ r2.date = c7Row.date ∧
      c7Row.totalInputTokens ≤ r2.totalInputTokens ∧
      c7Row.totalOutputTokens ≤ r2.totalOutputTokens ∧
      c7Row.totalCacheCreationTokens ≤ r2.totalCacheCreationTokens ∧
      c7Row.totalCacheReadTokens ≤ r2.totalCacheReadTokens ∧
      c7Row.totalCost ≤ r2.totalCost ∧
      c7Row.requestCount ≤ r2.requestCount ∧
      (¬ (c7Row.userId = c7UsageA.userId ∧ c7Row.date = "2025-07-29") → r2 = c7Row)) :=
  ⟨⟨by norm_num [c7UsageA], by norm_num [c7UsageA], by norm_num [c7UsageA],
    by norm_num [c7UsageA], by norm_num [c7UsageA], by simp [c7Db2]⟩,
   recordUsage_daily_monotone c7Db2 c7UsageA "2025-07-29"
     (by norm_num [c7UsageA]) (by norm_num [c7UsageA]) (by norm_num [c7UsageA])
     (by norm_num [c7UsageA]) (by norm_num [c7UsageA]) c7Row (by simp [c7Db2])⟩

/-- Claim C7 (counterexample): the daily aggregate is keyed by
`(user_id, date)` alone: two commits for the same user and day under
different API keys (token ids 1 and 2) and different models merge into a
single aggregate row, where a `(date, apiKeyId, model)` keying would
produce two distinct rows. -/
theorem recordUsage_daily_key_merges :
    (recordUsage (recordUsage c7Db c7UsageA "2025-07-29") c7UsageB
        "2025-07-29").usageDaily = [c7MergedRow] ∧
    c7UsageA.tokenId ≠ c7UsageB.tokenId ∧ c7UsageA.model ≠ c7UsageB.model := by
  refine ⟨?_, by simp [c7UsageA, c7UsageB], by simp [c7UsageA, c7UsageB]⟩
  rw [recordUsage_usageDaily, recordUsage_usageDaily]
  simp [c7Db, c7UsageA, c7UsageB, updateDailyUsage, dailyKeyMatches, c7MergedRow]
  norm_num

/-- Claim C4 (counterexample): a commit whose deduction clamps at zero, on
a key whose validation carries the `dailyCostLimit` 5/100, sets no overdraw
or disabled flag: the balance clamps to 0, the token rows are unchanged,
and the key still validates with `active = true`. -/
theorem recordUsage_no_overdraw_flag :
    (validateApiKey c4Db "cr_c4_demo_key_00000000").map
        (fun r => r.limits.dailyCostLimit) = some (1 / 20) ∧
    getUserCredits (recordUsage c4Db c4Usage "2025-07-29").credits 1 =
      some c4CreditAfter ∧
    (recordUsage c4Db c4Usage "2025-07-29").tokens = c4Db.tokens ∧
    (validateApiKey (recordUsage c4Db c4Usage "2025-07-29")
        "cr_c4_demo_key_00000000").map (fun r => r.active) = some true := by
  have hmax : max (0 : ℚ) (5 - 10) = 0 := by norm_num
  refine ⟨?_, ?_, ?_, ?_⟩
  · simp [validateApiKey, getTokenByHash, c4Db, c4Token, List.find?_cons, joinToken,
      c4User, c4Credit, formatTokenInfo, dailyCostLimitOf, jsTruthyQ]
    norm_num
  · simp [recordUsage, c4Db, c4Credit, getUserCredits, List.find?_cons,
      updateCreditsBalance, hmax, c4Usage, c4CreditAfter]
  · simp [recordUsage, c4Db, c4Credit, getUserCredits, List.find?_cons,
      updateCreditsBalance, c4Usage]
  · simp [recordUsage, c4Db, c4Credit, getUserCredits, List.find?_cons,
      updateCreditsBalance, c4Usage, validateApiKey, getTokenByHash, c4Token,
      joinToken, c4User, formatTokenInfo, hmax]

/-- Witness for the amended C4 at the concrete overdraw state: the cost 10
is non-negative, the clamped balance is reported, and the tokens survive. -/
theorem recordUsage_clamps_at_zero_witness :
    (0 : ℚ) ≤ c4Usage.cost ∧
    ((recordUsage c4Db c4Usage "2025-07-29").tokens = c4Db.tokens ∧
     (∀ c, getUserCredits c4Db.credits c4Usage.userId = some c →
       getUserCredits (recordUsage c4Db c4Usage "2025-07-29").credits c4Usage.userId =
         some { c with balance := max 0 (c.balance - c4Usage.cost) } ∧
       (0 : ℚ) ≤ max 0 (c.balance - c4Usage.cost)) ∧
     (getUserCredits c4Db.credits c4Usage.userId = none →
       (recordUsage c4Db c4Usage "2025-07-29").credits = c4Db.credits)) :=
  ⟨by norm_num [c4Usage],
   recordUsage_clamps_at_zero c4Db c4Usage "2025-07-29" (by norm_num [c4Usage])⟩

/-- Claim C2 (counterexample): for a concrete key and salt, the hash
`SecurityUtils.hashApiKey` stores is not the SHA-256 hex digest of the
plaintext -- it has 128 characters where a SHA-256 hex digest has 64. -/
theorem hashApiKey_not_sha256Hex :
    (hashApiKey "sk_0123456789abcdefg" "73616c7453616c7453616c74").hash ≠
      sha256HexS "sk_0123456789abcdefg" := by
  intro h
  have h1 := hashApiKey_hash_length "sk_0123456789abcdefg" "73616c7453616c7453616c74"
  rw [h, sha256HexS_length] at h1
  omega

end Relay
